import Mathlib

/-!
Verification of the yatube blogging platform core
(posts/models.py, posts/views.py, posts/utils.py).

The Django models are embedded as Lean structures, querysets as lists,
and each view's core logic as a pure function over an explicit store.
Times (`pub_date`, `created`, cache clocks) are naturals.
-/

namespace Yatube

/-! ## Data model (posts/models.py) -/

/-- Embedding of `Post` (models.py lines 11-47): text, pub_date (set once at creation),
author (FK User), optional group (FK Group, nullable), optional image.
`id` is the automatic primary key. Meta ordering is `-pub_date`. -/
structure PostRec where
  id : Nat
  text : String
  pub_date : Nat
  author : Nat
  group : Option Nat
  image : Option String
deriving DecidableEq, Repr

/-- Embedding of `Group` (models.py lines 50-56): title, unique slug, description. -/
structure GroupRec where
  id : Nat
  title : String
  slug : String
  description : String
deriving DecidableEq, Repr

/-- Embedding of `Comment` (models.py lines 59-82, migration 0004): post (FK Post),
author (FK User), text, created (set once). Meta ordering is `-created`. -/
structure CommentRec where
  id : Nat
  post : Nat
  author : Nat
  text : String
  created : Nat
deriving DecidableEq, Repr

/-- Embedding of `Follow` (models.py lines 85-100): edge user -> author, both FK User.
The model declares no Meta options: in particular no `unique_together`
and no `UniqueConstraint`. -/
structure FollowRec where
  user : Nat
  author : Nat
deriving DecidableEq, Repr

/-- A row of the (external) User table: primary key and unique username. -/
structure UserRec where
  id : Nat
  username : String
deriving DecidableEq, Repr

/-! ## Queryset ordering (Meta `ordering` on Post and Comment) -/

/-- The ordering `['-pub_date']` of `Post.Meta` (models.py line 42):
`a` precedes `b` when `b.pub_date ≤ a.pub_date`. -/
def postDescOrd (a b : PostRec) : Prop := b.pub_date ≤ a.pub_date

instance : DecidableRel postDescOrd := fun a b => by
  unfold postDescOrd; infer_instance

instance : IsTotal PostRec postDescOrd :=
  ⟨fun a b => le_total b.pub_date a.pub_date⟩

instance : IsTrans PostRec postDescOrd :=
  ⟨fun _ _ _ h1 h2 => le_trans h2 h1⟩

/-- A Post queryset honouring `Post.Meta.ordering = ['-pub_date']`. -/
def orderPostsDesc (l : List PostRec) : List PostRec :=
  List.insertionSort postDescOrd l

/-- The ordering `['-created']` of `Comment.Meta` (models.py line 78). -/
def commentDescOrd (a b : CommentRec) : Prop := b.created ≤ a.created

instance : DecidableRel commentDescOrd := fun a b => by
  unfold commentDescOrd; infer_instance

instance : IsTotal CommentRec commentDescOrd :=
  ⟨fun a b => le_total b.created a.created⟩

instance : IsTrans CommentRec commentDescOrd :=
  ⟨fun _ _ _ h1 h2 => le_trans h2 h1⟩

/-- A Comment queryset honouring `Comment.Meta.ordering = ['-created']`. -/
def orderCommentsDesc (l : List CommentRec) : List CommentRec :=
  List.insertionSort commentDescOrd l

/-! ## Pagination (posts/utils.py and Django's Paginator) -/

/-- Embedding of `NUMBER_OF_OUTPUT_POSTS = 10` (utils.py line 3). -/
def NUMBER_OF_OUTPUT_POSTS : Nat := 10

/-- Django `Paginator.num_pages` for `allow_empty_first_page`:
`ceil(count / per_page)`, but at least 1 (an empty source still has one
empty page). -/
def num_pages (count : Nat) : Nat :=
  max 1 ((count + NUMBER_OF_OUTPUT_POSTS - 1) / NUMBER_OF_OUTPUT_POSTS)

/-- Django `Paginator.get_page`: a missing or non-integer page parameter
(`none`) falls back to page 1; a number below 1 or beyond the last page
falls back to the last page; otherwise the number itself. -/
def get_page_number (count : Nat) (param : Option Int) : Nat :=
  match param with
  | none => 1
  | some n =>
      if n < 1 then num_pages count
      else if n > (num_pages count : Int) then num_pages count
      else n.toNat

/-- The items of 1-based page `n`: Django `Page.object_list`, the slice
`[(n-1)*per_page, n*per_page)` of the ordered source. -/
def page_items (l : List PostRec) (n : Nat) : List PostRec :=
  (l.drop ((n - 1) * NUMBER_OF_OUTPUT_POSTS)).take NUMBER_OF_OUTPUT_POSTS

/-- The `page_obj` that `get_page_context` puts into the rendering
context: the page's items plus the navigation data Django's `Page`
carries. -/
structure PageObj where
  object_list : List PostRec
  number : Nat
  count : Nat
  has_previous : Bool
  has_next : Bool
deriving DecidableEq, Repr

/-- Embedding of `get_page_context(posts, request)` (utils.py lines 6-12): build a
`Paginator(posts, 10)`, resolve the request's `page` parameter with
`get_page`, and return the resulting page object. -/
def get_page_context (posts : List PostRec) (pageParam : Option Int) : PageObj :=
  let n := get_page_number posts.length pageParam
  { object_list := page_items posts n
    number := n
    count := posts.length
    has_previous := decide (1 < n)
    has_next := decide (n < num_pages posts.length) }

/-- All pages of a source sequence, in order: page 1 up to the last page. -/
def all_pages (l : List PostRec) : List (List PostRec) :=
  (List.range (num_pages l.length)).map (fun i => page_items l (i + 1))

/-! ## Pagination lemmas -/

theorem join_chunks (l : List PostRec) (k : Nat) :
    ((List.range k).map (fun i => page_items l (i + 1))).flatten
      = l.take (k * NUMBER_OF_OUTPUT_POSTS) := by
  induction k with
  | zero => simp
  | succ k ih =>
      rw [List.range_succ, List.map_append, List.flatten_append, ih]
      have hmul : (k + 1) * NUMBER_OF_OUTPUT_POSTS
          = k * NUMBER_OF_OUTPUT_POSTS + NUMBER_OF_OUTPUT_POSTS := by ring
      rw [hmul, List.take_add]
      simp [page_items]

theorem length_le_num_pages_mul (n : Nat) :
    n ≤ num_pages n * NUMBER_OF_OUTPUT_POSTS := by
  unfold num_pages NUMBER_OF_OUTPUT_POSTS
  have hmod : (n + 10 - 1) % 10 < 10 := Nat.mod_lt _ (by norm_num)
  have hdiv := Nat.div_add_mod (n + 10 - 1) 10
  have hmax : (n + 10 - 1) / 10 ≤ max 1 ((n + 10 - 1) / 10) := le_max_right _ _
  omega

theorem all_pages_join (l : List PostRec) : (all_pages l).flatten = l := by
  unfold all_pages
  rw [join_chunks]
  exact List.take_of_length_le (length_le_num_pages_mul l.length)

/-- Claim C8: for every source sequence of posts and every requested page
number (absent, non-integer, too small, too large, or in range),
`get_page_context` returns at most 10 items for that page. -/
theorem compose_feed_page_at_most_ten (posts : List PostRec) (pageParam : Option Int) :
    (get_page_context posts pageParam).object_list.length ≤ 10 := by
  unfold get_page_context page_items
  simp only
  rw [List.length_take]
  exact le_trans (min_le_left _ _) (by norm_num [NUMBER_OF_OUTPUT_POSTS])

/-- Claim C3: for every non-empty sequence of posts, concatenating page 1
and all subsequent pages of the paginated, `pub_date`-descending query
yields a permutation of the input (no duplicates, no omissions) that is
sorted by `pub_date` descending. -/
theorem compose_feed_pages_reconstruct (ps : List PostRec) (h : ps ≠ []) :
    ((all_pages (orderPostsDesc ps)).flatten).Perm ps ∧
    List.Pairwise (fun a b => b.pub_date ≤ a.pub_date)
      ((all_pages (orderPostsDesc ps)).flatten) := by
  rw [all_pages_join]
  refine ⟨List.perm_insertionSort postDescOrd ps, ?_⟩
  exact List.sorted_insertionSort postDescOrd ps

/-- Witness for C3 at a concrete two-post store whose input order is
ascending, so the pages really reorder it. -/
theorem compose_feed_pages_reconstruct_witness :
    ([⟨1, "a", 5, 1, none, none⟩, ⟨2, "b", 9, 1, none, none⟩] : List PostRec) ≠ [] ∧
    (((all_pages (orderPostsDesc
        [⟨1, "a", 5, 1, none, none⟩, ⟨2, "b", 9, 1, none, none⟩])).flatten).Perm
      [⟨1, "a", 5, 1, none, none⟩, ⟨2, "b", 9, 1, none, none⟩] ∧
     List.Pairwise (fun a b => b.pub_date ≤ a.pub_date)
      ((all_pages (orderPostsDesc
        [⟨1, "a", 5, 1, none, none⟩, ⟨2, "b", 9, 1, none, none⟩])).flatten)) :=
  ⟨by decide, compose_feed_pages_reconstruct _ (by decide)⟩

/-! ## Lookups (get_object_or_404 and queryset filters) -/

/-- Embedding of `get_object_or_404(Post, id=post_id)`: the stored post with that
primary key, if any. -/
def find_post (posts : List PostRec) (post_id : Nat) : Option PostRec :=
  posts.find? (fun p => p.id == post_id)

/-- Embedding of `get_object_or_404(User, username=username)`. -/
def find_user (users : List UserRec) (username : String) : Option UserRec :=
  users.find? (fun u => u.username == username)

/-- Embedding of `get_object_or_404(Group, slug=slug)`. -/
def find_group (groups : List GroupRec) (slug : String) : Option GroupRec :=
  groups.find? (fun g => g.slug == slug)

/-- The username of the User a Follow row's `author` FK points to
(the join behind the filter `author__username=...`). -/
def author_username (users : List UserRec) (author_id : Nat) : Option String :=
  (users.find? (fun u => u.id == author_id)).map (fun u => u.username)

/-! ## post_detail (views.py lines 52-65) -/

/-- Embedding of `post_detail(request, post_id)`: look up the post by id (404 -> `none`)
and render it together with `Comment.objects.all()` — the unfiltered
Comment table, in its Meta order `-created`. Note the source does not
filter the comments by post. -/
def post_detail (post_id : Nat) (posts : List PostRec)
    (comments : List CommentRec) : Option (PostRec × List CommentRec) :=
  match find_post posts post_id with
  | none => none
  | some post => some (post, orderCommentsDesc comments)

/-- Claim C1 fails on the code: with post 1 and post 2 in the store,
comment 10 attached to post 1 and comment 11 attached to post 2,
`post_detail 1` returns both comments — the rendered comment list maps to
post ids `[2, 1]`, so it contains comment 11 which belongs to post 2, not
to the requested post 1. The view reads `Comment.objects.all()` instead of
`post.comments.all()`. -/
theorem post_detail_returns_comments_of_other_posts :
    (post_detail 1
        [⟨1, "first", 100, 1, none, none⟩, ⟨2, "second", 200, 1, none, none⟩]
        [⟨10, 1, 2, "on the first post", 300⟩, ⟨11, 2, 2, "on the second post", 400⟩]).map
      (fun r => r.2.map CommentRec.post) = some [2, 1] := by
  decide

/-! ## post_edit (views.py lines 84-101) -/

/-- Modelled from the spec: `posts/forms.py` is not under src/. Per the
spec (§4.4 and §3) the post form carries exactly the author-editable
fields `text`, `group`, `image`, and is invalid when `text` is empty. -/
structure PostForm where
  text : String
  group : Option Nat
  image : Option String
deriving DecidableEq, Repr

/-- Modelled from the spec: form validation rejects empty text
(ValidationError of §4.4); `text` is a required field. -/
def PostForm.is_valid (f : PostForm) : Bool := f.text ≠ ""

/-- Outcome of the `post_edit` view as seen by the presentation layer. -/
inductive EditResult where
  | not_found
  | redirect_detail (post_id : Nat)
  | rerender_form
deriving DecidableEq, Repr

/-- Embedding of `post_edit(request, post_id)`: 404 if the post id is unknown; if the
request's user is not the post's author, redirect to `post_detail` without
touching the store; otherwise, if the bound form is valid, save it —
updating exactly the form's fields (`text`, `group`, `image`) on the
instance — and redirect to `post_detail`; an invalid form re-renders. -/
def post_edit (request_user : Nat) (post_id : Nat) (form : PostForm)
    (posts : List PostRec) : EditResult × List PostRec :=
  match find_post posts post_id with
  | none => (EditResult.not_found, posts)
  | some post =>
      if request_user ≠ post.author then
        (EditResult.redirect_detail post_id, posts)
      else if form.is_valid then
        (EditResult.redirect_detail post_id,
         posts.map (fun p =>
           if p.id == post_id then
             { p with text := form.text, group := form.group, image := form.image }
           else p))
      else (EditResult.rerender_form, posts)

/-- Claim C5: for every stored post and every editor other than the post's
author, `post_edit` redirects to the read-only detail view and leaves the
post store completely unchanged. -/
theorem post_edit_non_author_denied (editor post_id : Nat) (form : PostForm)
    (posts : List PostRec) (post : PostRec)
    (hfind : find_post posts post_id = some post)
    (hne : editor ≠ post.author) :
    post_edit editor post_id form posts = (EditResult.redirect_detail post_id, posts) := by
  unfold post_edit
  rw [hfind]
  simp [hne]

/-- Witness for C5: user 7 edits post 1 owned by user 1; the store is
returned unchanged with a redirect. -/
theorem post_edit_non_author_denied_witness :
    post_edit 7 1 ⟨"new text", none, none⟩ [⟨1, "old", 100, 1, none, none⟩]
      = (EditResult.redirect_detail 1, [⟨1, "old", 100, 1, none, none⟩]) :=
  post_edit_non_author_denied 7 1 ⟨"new text", none, none⟩
    [⟨1, "old", 100, 1, none, none⟩] ⟨1, "old", 100, 1, none, none⟩
    (by decide) (by decide)

/-- Claim C7: a successful edit by the post's author succeeds with a
redirect and maps every stored post to one with the same `id`, `author`
and `pub_date` — only `text`, `group`, `image` can have changed. -/
theorem post_edit_author_frame (editor post_id : Nat) (form : PostForm)
    (posts : List PostRec) (post : PostRec)
    (hfind : find_post posts post_id = some post)
    (heq : editor = post.author)
    (hv : form.is_valid = true) :
    (post_edit editor post_id form posts).1 = EditResult.redirect_detail post_id ∧
    ((post_edit editor post_id form posts).2).map (fun p => (p.id, p.author, p.pub_date))
      = posts.map (fun p => (p.id, p.author, p.pub_date)) := by
  unfold post_edit
  rw [hfind]
  subst heq
  simp only [ne_eq, not_true_eq_false, if_false, hv, if_true, ite_not]
  constructor
  · simp
  · rw [List.map_map]
    apply List.map_congr_left
    intro p _
    by_cases hp : p.id = post_id <;> simp [hp]

/-- Witness for C7: user 1 edits their own post 1 with a valid form; the
result redirects, and id, author and pub_date of every stored post are
untouched. -/
theorem post_edit_author_frame_witness :
    find_post [⟨1, "old", 100, 1, some 4, none⟩] 1 = some ⟨1, "old", 100, 1, some 4, none⟩ ∧
    (1 : Nat) = (1 : Nat) ∧
    (PostForm.mk "new" none (some "pic")).is_valid = true ∧
    ((post_edit 1 1 ⟨"new", none, some "pic"⟩ [⟨1, "old", 100, 1, some 4, none⟩]).1
        = EditResult.redirect_detail 1 ∧
     ((post_edit 1 1 ⟨"new", none, some "pic"⟩ [⟨1, "old", 100, 1, some 4, none⟩]).2).map
        (fun p => (p.id, p.author, p.pub_date))
       = ([⟨1, "old", 100, 1, some 4, none⟩] : List PostRec).map
           (fun p => (p.id, p.author, p.pub_date))) :=
  ⟨by decide, rfl, by decide,
   post_edit_author_frame 1 1 ⟨"new", none, some "pic"⟩
     [⟨1, "old", 100, 1, some 4, none⟩] ⟨1, "old", 100, 1, some 4, none⟩
     (by decide) rfl (by decide)⟩

/-! ## Follow graph (views.py lines 129-142, models.py lines 85-100) -/

/-- The number of Follow rows for the ordered pair `(u, a)`. -/
def countFollow (edges : List FollowRec) (u a : Nat) : Nat :=
  (edges.filter (fun e => e.user == u && e.author == a)).length

/-- The uniqueness constraints declared on the Follow model. models.py
gives `Follow` no `Meta` class at all, hence no `unique_together` and no
`UniqueConstraint`: the list is empty. -/
def followUniqueConstraints : List (List String) := []

/-- A direct store-level insert of a Follow row. Because
`followUniqueConstraints` is empty, the store accepts any row
unconditionally — nothing rejects a duplicate `(user, author)` pair. -/
def store_insert_follow (e : FollowRec) (edges : List FollowRec) : List FollowRec :=
  edges ++ [e]

/-- Embedding of `profile_follow(request, username)` (views.py lines 129-135): resolve
the author by username (404 leaves the store untouched); if the author is
not the requesting user, `Follow.objects.get_or_create(user=user,
author=author)` — create the edge only when no identical edge exists. -/
def profile_follow (users : List UserRec) (request_user : UserRec)
    (username : String) (edges : List FollowRec) : List FollowRec :=
  match find_user users username with
  | none => edges
  | some author =>
      if author.id ≠ request_user.id then
        if edges.any (fun e => e.user == request_user.id && e.author == author.id) then
          edges
        else
          edges ++ [⟨request_user.id, author.id⟩]
      else edges

/-- Embedding of `profile_unfollow(request, username)` (views.py lines 138-142):
`Follow.objects.filter(user=user, author__username=username).delete()` —
keep exactly the rows that do not match the filter. Deleting an empty
queryset is not an error. -/
def profile_unfollow (request_user : Nat) (username : String)
    (users : List UserRec) (edges : List FollowRec) : List FollowRec :=
  edges.filter (fun e =>
    !(e.user == request_user && author_username users e.author == some username))

/-! ## Follow lemmas -/

theorem countFollow_append (s t : List FollowRec) (u a : Nat) :
    countFollow (s ++ t) u a = countFollow s u a + countFollow t u a := by
  unfold countFollow
  rw [List.filter_append, List.length_append]

theorem countFollow_eq_zero_of_any_false (s : List FollowRec) (u a : Nat)
    (h : s.any (fun e => e.user == u && e.author == a) = false) :
    countFollow s u a = 0 := by
  unfold countFollow
  rw [List.length_eq_zero, List.filter_eq_nil_iff]
  exact List.any_eq_false.mp h

theorem any_true_of_countFollow_pos (s : List FollowRec) (u a : Nat)
    (h : countFollow s u a ≠ 0) :
    s.any (fun e => e.user == u && e.author == a) = true := by
  by_contra hc
  exact h (countFollow_eq_zero_of_any_false s u a (Bool.eq_false_iff.mpr hc))

/-- Claim C6: `profile_follow` is idempotent and rejects self-follows.
With the author's record resolving from the username: if the author is
not the requesting user and no edge exists yet, following twice leaves
exactly one edge for the pair; if the author is the requesting user and
no self-edge exists, following leaves zero such edges. -/
theorem profile_follow_idempotent_no_self (users : List UserRec)
    (request_user author : UserRec) (username : String) (edges : List FollowRec)
    (hfind : find_user users username = some author) :
    (author.id ≠ request_user.id → countFollow edges request_user.id author.id = 0 →
      countFollow
        (profile_follow users request_user username
          (profile_follow users request_user username edges))
        request_user.id author.id = 1) ∧
    (author.id = request_user.id → countFollow edges request_user.id request_user.id = 0 →
      countFollow (profile_follow users request_user username edges)
        request_user.id request_user.id = 0) := by
  constructor
  · intro hne h0
    have hany : edges.any
        (fun e => e.user == request_user.id && e.author == author.id) = false := by
      rcases Bool.eq_false_or_eq_true
        (edges.any (fun e => e.user == request_user.id && e.author == author.id))
        with ht | hf
      · -- any = true means some edge matches, contradicting count = 0
        exfalso
        rcases List.any_eq_true.mp ht with ⟨e, he, hpe⟩
        have hcz : countFollow edges request_user.id author.id ≠ 0 := by
          unfold countFollow
          intro hlen
          exact List.filter_eq_nil_iff.mp (List.length_eq_zero.mp hlen) e he hpe
        exact hcz h0
      · exact hf
    have hstep1 : profile_follow users request_user username edges
        = edges ++ [⟨request_user.id, author.id⟩] := by
      unfold profile_follow
      rw [hfind]
      simp [hne, hany]
    have hany2 : (edges ++ [(⟨request_user.id, author.id⟩ : FollowRec)]).any
        (fun e => e.user == request_user.id && e.author == author.id) = true := by
      rw [List.any_append]
      simp
    have hstep2 : profile_follow users request_user username
        (edges ++ [⟨request_user.id, author.id⟩])
        = edges ++ [⟨request_user.id, author.id⟩] := by
      unfold profile_follow
      rw [hfind]
      simp [hne, hany2]
    rw [hstep1, hstep2, countFollow_append, h0]
    unfold countFollow
    simp
  · intro heq h0
    have hstep : profile_follow users request_user username edges = edges := by
      unfold profile_follow
      rw [hfind]
      simp [heq]
    rw [hstep]
    exact h0

/-- Witness for C6: alice (id 1) follows bob (id 2) twice from an empty
edge set, ending with exactly one edge; alice follows herself from an
empty edge set, ending with zero self-edges. -/
theorem profile_follow_idempotent_no_self_witness :
    (find_user [⟨1, "alice"⟩, ⟨2, "bob"⟩] "bob" = some ⟨2, "bob"⟩ ∧
     countFollow
       (profile_follow [⟨1, "alice"⟩, ⟨2, "bob"⟩] ⟨1, "alice"⟩ "bob"
         (profile_follow [⟨1, "alice"⟩, ⟨2, "bob"⟩] ⟨1, "alice"⟩ "bob" [])) 1 2 = 1) ∧
    (find_user [⟨1, "alice"⟩, ⟨2, "bob"⟩] "alice" = some ⟨1, "alice"⟩ ∧
     countFollow
       (profile_follow [⟨1, "alice"⟩, ⟨2, "bob"⟩] ⟨1, "alice"⟩ "alice" []) 1 1 = 0) :=
  ⟨⟨by decide,
    (profile_follow_idempotent_no_self [⟨1, "alice"⟩, ⟨2, "bob"⟩] ⟨1, "alice"⟩
      ⟨2, "bob"⟩ "bob" [] (by decide)).1 (by decide) (by decide)⟩,
   ⟨by decide,
    (profile_follow_idempotent_no_self [⟨1, "alice"⟩, ⟨2, "bob"⟩] ⟨1, "alice"⟩
      ⟨1, "alice"⟩ "alice" [] (by decide)).2 rfl (by decide)⟩⟩

/-- Claim C9: when no stored edge matches the pair — no edge has this
user together with an author of this username — `profile_unfollow`
returns the edge set unchanged (and, being a total function, raises no
error). -/
theorem profile_unfollow_missing_edge_noop (request_user : Nat) (username : String)
    (users : List UserRec) (edges : List FollowRec)
    (h : ∀ e ∈ edges, ¬(e.user = request_user ∧
          author_username users e.author = some username)) :
    profile_unfollow request_user username users edges = edges := by
  unfold profile_unfollow
  rw [List.filter_eq_self]
  intro e he
  have hne := h e he
  simp only [Bool.not_eq_true', Bool.and_eq_false_iff]
  by_cases hu : e.user = request_user
  · right
    have : ¬author_username users e.author = some username := fun hh => hne ⟨hu, hh⟩
    simpa using this
  · left
    simpa using hu

/-- Witness for C9: alice (id 1) unfollows bob (username "bob") while the
only stored edge is carol (id 3) -> bob; the edge set is unchanged. -/
theorem profile_unfollow_missing_edge_noop_witness :
    (∀ e ∈ ([⟨3, 2⟩] : List FollowRec), ¬(e.user = 1 ∧
        author_username [⟨1, "alice"⟩, ⟨2, "bob"⟩, ⟨3, "carol"⟩] e.author = some "bob")) ∧
    profile_unfollow 1 "bob" [⟨1, "alice"⟩, ⟨2, "bob"⟩, ⟨3, "carol"⟩] [⟨3, 2⟩]
      = [⟨3, 2⟩] :=
  ⟨by decide,
   profile_unfollow_missing_edge_noop 1 "bob"
     [⟨1, "alice"⟩, ⟨2, "bob"⟩, ⟨3, "carol"⟩] [⟨3, 2⟩] (by decide)⟩

/-! ## Store-level vs manager-level uniqueness of Follow (claim C2) -/

theorem countFollow_singleton (e : FollowRec) (u a : Nat) :
    countFollow [e] u a = if e.user = u ∧ e.author = a then 1 else 0 := by
  unfold countFollow
  by_cases h1 : e.user = u <;> by_cases h2 : e.author = a <;> simp [h1, h2]

theorem countFollow_profile_follow_le (users : List UserRec) (request_user : UserRec)
    (username : String) (s : List FollowRec) (u a : Nat)
    (h : countFollow s u a ≤ 1) :
    countFollow (profile_follow users request_user username s) u a ≤ 1 := by
  unfold profile_follow
  cases hfu : find_user users username with
  | none => exact h
  | some author =>
      by_cases hne : author.id = request_user.id
      · simp only [hne, ne_eq, not_true_eq_false, if_false]
        exact h
      · simp only [ne_eq, hne, not_false_eq_true, if_true]
        cases hany : s.any
            (fun e => e.user == request_user.id && e.author == author.id) with
        | true => exact h
        | false =>
            simp only [Bool.false_eq_true, if_false]
            rw [countFollow_append, countFollow_singleton]
            by_cases hm : (⟨request_user.id, author.id⟩ : FollowRec).user = u ∧
                (⟨request_user.id, author.id⟩ : FollowRec).author = a
            · obtain ⟨hu, ha⟩ := hm
              simp only at hu ha
              subst hu
              subst ha
              rw [countFollow_eq_zero_of_any_false s _ _ hany]
              simp
            · simp only [hm, if_false]
              omega

theorem countFollow_filter_le (q : FollowRec → Bool) (s : List FollowRec) (u a : Nat) :
    countFollow (s.filter q) u a ≤ countFollow s u a := by
  unfold countFollow
  exact List.Sublist.length_le (List.Sublist.filter _ (List.filter_sublist s))

/-- Follow-store states reachable through the Social Graph Manager's own
operations (the follow and unfollow views), starting from an empty table. -/
inductive ManagerReachable : List FollowRec → Prop
  | init : ManagerReachable []
  | follow (users : List UserRec) (request_user : UserRec) (username : String)
      {s : List FollowRec} : ManagerReachable s →
      ManagerReachable (profile_follow users request_user username s)
  | unfollow (request_user : Nat) (username : String) (users : List UserRec)
      {s : List FollowRec} : ManagerReachable s →
      ManagerReachable (profile_unfollow request_user username users s)

/-- Claim C2 as stated is false at a concrete input: the Follow model
declares no store-level uniqueness constraint (`followUniqueConstraints`
is empty, models.py lines 85-100 have no Meta), so the store accepts a
second identical (1, 2) row inserted directly, reaching a store state
with two records for one ordered pair. -/
theorem follow_store_accepts_duplicate_pair :
    followUniqueConstraints = [] ∧
    countFollow (store_insert_follow ⟨1, 2⟩ (store_insert_follow ⟨1, 2⟩ [])) 1 2 = 2 := by
  decide

/-- Claim C2 amended: at most one Follow record per ordered pair holds
for every state reachable through the manager's sequential follow and
unfollow operations — enforced by get_or_create's read-then-write check,
not by a store constraint. -/
theorem manager_reachable_at_most_one_edge (s : List FollowRec)
    (h : ManagerReachable s) (u a : Nat) : countFollow s u a ≤ 1 := by
  induction h with
  | init => simp [countFollow]
  | follow users request_user username hs ih =>
      exact countFollow_profile_follow_le users request_user username _ u a ih
  | unfollow request_user username users hs ih =>
      unfold profile_unfollow
      exact le_trans (countFollow_filter_le _ _ u a) ih

/-- Witness for the amended C2: the state reached by one follow operation
from the empty table carries at most one (1, 2) edge. -/
theorem manager_reachable_at_most_one_edge_witness :
    countFollow (profile_follow [⟨1, "alice"⟩, ⟨2, "bob"⟩] ⟨1, "alice"⟩ "bob" []) 1 2 ≤ 1 :=
  manager_reachable_at_most_one_edge _
    (ManagerReachable.follow [⟨1, "alice"⟩, ⟨2, "bob"⟩] ⟨1, "alice"⟩ "bob"
      ManagerReachable.init) 1 2

/-! ## profile view (views.py lines 34-49, claim C10) -/

/-- SQL semantics of the queryset filter `user=request.user.id` on the
non-nullable `user` FK column: an anonymous request has id NULL
(`none`), and NULL never compares equal to a stored value. -/
def filter_user_matches (stored_user : Nat) (request_user_id : Option Nat) : Bool :=
  match request_user_id with
  | some v => stored_user == v
  | none => false

/-- The `following` flag of the profile view (views.py lines 37-40):
`author.following.filter(user=request.user.id, author=author).exists()` —
does any of the author's incoming edges have a `user` equal to the
request user's id? -/
def profile_following (edges : List FollowRec) (request_user_id : Option Nat)
    (author : UserRec) : Bool :=
  (edges.filter (fun e => e.author == author.id)).any
    (fun e => filter_user_matches e.user request_user_id && e.author == author.id)

/-- The rendering context the profile view produces. -/
structure ProfileContext where
  author : UserRec
  following : Bool
  page : PageObj
deriving DecidableEq, Repr

/-- Embedding of `profile(request, username)` (views.py lines 34-49): resolve the
author by username (404 -> `none`), compute the `following` flag, and
paginate the author's posts. -/
def profile_view (username : String) (request_user_id : Option Nat)
    (pageParam : Option Int) (users : List UserRec) (posts : List PostRec)
    (edges : List FollowRec) : Option ProfileContext :=
  (find_user users username).map (fun author =>
    { author := author
      following := profile_following edges request_user_id author
      page := get_page_context
        (orderPostsDesc (posts.filter (fun p => p.author == author.id))) pageParam })

theorem profile_following_anonymous (edges : List FollowRec) (author : UserRec) :
    profile_following edges none author = false := by
  unfold profile_following
  rw [List.any_eq_false]
  intro e _
  simp [filter_user_matches]

/-- Claim C10: an anonymous visit to any existing profile renders
(`profile_view` is total and returns a context), and the is-following
indicator of that context is false for every author and edge set. -/
theorem profile_anonymous_not_following (username : String) (pageParam : Option Int)
    (users : List UserRec) (posts : List PostRec) (edges : List FollowRec)
    (ctx : ProfileContext)
    (h : profile_view username none pageParam users posts edges = some ctx) :
    ctx.following = false := by
  unfold profile_view at h
  obtain ⟨author, hfu, hctx⟩ := Option.map_eq_some'.mp h
  rw [← hctx]
  exact profile_following_anonymous edges author

/-- Witness for C10: an anonymous visitor views bob's profile while carol
follows bob; the rendered context has `following = false`. -/
theorem profile_anonymous_not_following_witness :
    profile_view "bob" none none [⟨2, "bob"⟩, ⟨3, "carol"⟩] [] [⟨3, 2⟩]
      = some ⟨⟨2, "bob"⟩, false, ⟨[], 1, 0, false, false⟩⟩ ∧
    (ProfileContext.mk ⟨2, "bob"⟩ false ⟨[], 1, 0, false, false⟩).following = false :=
  ⟨by decide,
   profile_anonymous_not_following "bob" none [⟨2, "bob"⟩, ⟨3, "carol"⟩] [] [⟨3, 2⟩]
     ⟨⟨2, "bob"⟩, false, ⟨[], 1, 0, false, false⟩⟩ (by decide)⟩

/-! ## Home-feed cache (views.py lines 10-22, claim C4)

`index` is the only view wrapped in `@cache_page(20, ...)`; `group_posts`,
`profile` and `follow_index` have no cache decorator. The per-view cache
is keyed by the request (here: the page parameter, the one varying part
of the rendering context) and an entry is valid while `now < expires`. -/

/-- One entry of the per-view cache: request key, rendered value, expiry
instant (`stored-at + timeout`). -/
structure CacheEntry where
  key : Option Int
  value : PageObj
  expires : Nat
deriving DecidableEq, Repr

/-- The mutable state the cached index view touches: the Post table and
the index page's cache entries. -/
structure SiteState where
  posts : List PostRec
  index_cache : List CacheEntry
deriving DecidableEq, Repr

/-- The timeout of `@cache_page(20, key_prefix='index_page')`. -/
def CACHE_TTL : Nat := 20

/-- Cache read: the entry for the key, provided it has not expired. -/
def cache_get (now : Nat) (key : Option Int) (c : List CacheEntry) : Option PageObj :=
  match c.find? (fun e => e.key == key) with
  | some e => if now < e.expires then some e.value else none
  | none => none

/-- Cache write: store the value under the key with the given expiry. -/
def cache_put (key : Option Int) (v : PageObj) (expires : Nat)
    (c : List CacheEntry) : List CacheEntry :=
  ⟨key, v, expires⟩ :: c.filter (fun e => !(e.key == key))

/-- Embedding of `cache.clear()`: drop every entry. -/
def cache_clear (s : SiteState) : SiteState := { s with index_cache := [] }

/-- The body of the index view: paginate `Post.objects.all()` in its Meta
order. -/
def index_render (posts : List PostRec) (pageParam : Option Int) : PageObj :=
  get_page_context (orderPostsDesc posts) pageParam

/-- Embedding of `index(request)` under `@cache_page(20, ...)` (views.py lines 10-22):
serve the unexpired cached rendering when one exists; otherwise render
from the current Post table and cache the result for `CACHE_TTL` time
units. -/
def index_view (now : Nat) (pageParam : Option Int) (s : SiteState) :
    PageObj × SiteState :=
  match cache_get now pageParam s.index_cache with
  | some v => (v, s)
  | none =>
      let v := index_render s.posts pageParam
      (v, { s with index_cache := cache_put pageParam v (now + CACHE_TTL) s.index_cache })

/-- Creating posts appends to the Post table and does not invalidate the
index cache (nothing in the source clears it on post creation). -/
def after_create (newPosts : List PostRec) (s : SiteState) : SiteState :=
  { s with posts := newPosts ++ s.posts }

/-- Embedding of `group_posts(request, slug)` (views.py lines 25-31): resolve the group
by slug and paginate its posts — no cache decorator, so the cache entries
of the state are never consulted. -/
def group_posts_view (slug : String) (pageParam : Option Int)
    (groups : List GroupRec) (s : SiteState) : Option PageObj :=
  (find_group groups slug).map (fun g =>
    get_page_context
      (orderPostsDesc (s.posts.filter (fun p => p.group == some g.id))) pageParam)

/-- The profile view read against the shared state — no cache decorator. -/
def profile_view_state (username : String) (request_user_id : Option Nat)
    (pageParam : Option Int) (users : List UserRec) (edges : List FollowRec)
    (s : SiteState) : Option ProfileContext :=
  profile_view username request_user_id pageParam users s.posts edges

/-- Embedding of `follow_index(request)` (views.py lines 116-126): paginate the posts
whose author is followed by the requesting user — no cache decorator. -/
def follow_index_view (request_user : Nat) (pageParam : Option Int)
    (edges : List FollowRec) (s : SiteState) : PageObj :=
  let authors := (edges.filter (fun e => e.user == request_user)).map FollowRec.author
  get_page_context
    (orderPostsDesc (s.posts.filter (fun p => authors.contains p.author))) pageParam

/-- Claim C4: after the index feed is computed at `t0`, a read at
`t1 < t0 + 20` returns the same rendering even though posts were created
in between; a read at `t1 ≥ t0 + 20`, or after an explicit cache clear,
is rendered fresh from the current Post table; and the group, profile and
follow feeds never depend on the cache entries at all. -/
theorem index_cache_temporal (t0 t1 : Nat) (p : Option Int)
    (posts newPosts : List PostRec) (h01 : t0 ≤ t1) :
    (t1 < t0 + CACHE_TTL →
      (index_view t1 p (after_create newPosts (index_view t0 p ⟨posts, []⟩).2)).1
        = (index_view t0 p ⟨posts, []⟩).1) ∧
    (t0 + CACHE_TTL ≤ t1 →
      (index_view t1 p (after_create newPosts (index_view t0 p ⟨posts, []⟩).2)).1
        = index_render (newPosts ++ posts) p) ∧
    ((index_view t1 p (cache_clear (after_create newPosts (index_view t0 p ⟨posts, []⟩).2))).1
        = index_render (newPosts ++ posts) p) ∧
    (∀ slug groups c,
      group_posts_view slug p groups ⟨newPosts ++ posts, c⟩
        = group_posts_view slug p groups ⟨newPosts ++ posts, []⟩) ∧
    (∀ username uid pp users edges c,
      profile_view_state username uid pp users edges ⟨newPosts ++ posts, c⟩
        = profile_view_state username uid pp users edges ⟨newPosts ++ posts, []⟩) ∧
    (∀ request_user edges c,
      follow_index_view request_user p edges ⟨newPosts ++ posts, c⟩
        = follow_index_view request_user p edges ⟨newPosts ++ posts, []⟩) := by
  have h0 : index_view t0 p ⟨posts, []⟩
      = (index_render posts p,
         ⟨posts, [⟨p, index_render posts p, t0 + CACHE_TTL⟩]⟩) := by
    simp [index_view, cache_get, cache_put]
  refine ⟨?_, ?_, ?_, ?_, ?_, ?_⟩
  · intro ht
    rw [h0]
    simp [after_create, index_view, cache_get, ht]
  · intro ht
    rw [h0]
    have hnot : ¬t1 < t0 + CACHE_TTL := not_lt.mpr ht
    simp [after_create, index_view, cache_get, hnot, index_render]
  · rw [h0]
    simp [after_create, cache_clear, index_view, cache_get, index_render]
  · intro slug groups c
    rfl
  · intro username uid pp users edges c
    rfl
  · intro request_user edges c
    rfl

/-- Witness for C4: the feed is cached at time 0 over an empty Post
table; a post is created; a read at time 5 (within the 20-unit window)
still returns the cached empty rendering. -/
theorem index_cache_temporal_witness :
    (0 : Nat) ≤ 5 ∧ ((5 : Nat) < 0 + CACHE_TTL) ∧
    (index_view 5 none (after_create [⟨1, "new post", 50, 1, none, none⟩]
        (index_view 0 none ⟨[], []⟩).2)).1
      = (index_view 0 none ⟨[], []⟩).1 :=
  ⟨by decide, by decide,
   (index_cache_temporal 0 5 none [] [⟨1, "new post", 50, 1, none, none⟩]
     (by decide)).1 (by decide)⟩

end Yatube
